import Mathlib

/-!
Shallow embedding of `code/skullFindFiducial.py` (fiducial-marker
localisation).  Points are 3-vectors of rationals; the numpy arrays of the
source become Lean lists and `Matrix` values over `ℚ`.  External numerical
routines that the source calls (numpy's SVD, sklearn's nearest-neighbour
search metric) are modelled as explicit oracle parameters; everything the
source itself computes is translated line by line.
-/

namespace Skull

open Matrix (transpose)
open scoped Matrix

/-- A 3-d point / vector (one row of an `N×3` numpy array). -/
abbrev V3 := Fin 3 → ℚ

/-- A `3×3` matrix. -/
abbrev M3 := Matrix (Fin 3) (Fin 3) ℚ

/-- A `4×4` homogeneous matrix. -/
abbrev M4 := Matrix (Fin 4) (Fin 4) ℚ

/-- The zero vector (used as an out-of-range default for list indexing). -/
def v0 : V3 := fun _ => 0

/-- The canonical vertical axis `[0,0,1]` (`np.array([0.0,0.0,1.0])`). -/
def e3v : V3 := ![0, 0, 1]

/-- Dot product (`np.dot`) of two 3-vectors. -/
def dot3 (p q : V3) : ℚ := p 0 * q 0 + p 1 * q 1 + p 2 * q 2

/-- Cross product (`np.cross`) of two 3-vectors. -/
def cross3 (p q : V3) : V3 :=
  ![p 1 * q 2 - p 2 * q 1, p 2 * q 0 - p 0 * q 2, p 0 * q 1 - p 1 * q 0]

/-- Squared Euclidean distance: nearest-neighbour ranking by Euclidean
distance (sklearn) coincides with ranking by squared distance, which is
rational-valued. -/
def sqDist (p q : V3) : ℚ :=
  (p 0 - q 0) ^ 2 + (p 1 - q 1) ^ 2 + (p 2 - q 2) ^ 2

/-- The cross-product (skew) matrix `v` built entry by entry in
`find_init_transfo` (source lines 172-178): `v[1,0]=c3`, `v[2,0]=-c2`,
`v[0,1]=-c3`, `v[2,1]=c1`, `v[0,2]=c2`, `v[1,2]=-c1`. -/
def skewV (ec : V3) : M3 :=
  !![0, -ec 2, ec 1; ec 2, 0, -ec 0; -ec 1, ec 0, 0]

/-- The homogeneous matrix built at the end of `find_init_transfo`
(source lines 183-191): `T = identity(4)`, `T[0:3,0:3] = R`, `T = Tᵀ`,
`T[0:3,3] = 0`.  Net effect: top-left block `Rᵀ`, zero translation,
last row `[0,0,0,1]`. -/
def homogT (R : M3) : M4 :=
  Matrix.of fun i j =>
    if hi : (i : ℕ) < 3 then
      if hj : (j : ℕ) < 3 then R ⟨j, hj⟩ ⟨i, hi⟩ else 0
    else if (j : ℕ) < 3 then 0 else 1

/-- Embedding of `find_init_transfo(evec1, evec2)` (source lines 163-192): Rodrigues'
formula `R = I + v + v²/(1+c)` with `v` the skew matrix of
`evec1 × evec2` and `c = evec1 · evec2`, packaged (transposed) into a
homogeneous matrix with zero translation.  When `1 + c = 0` the source
divides by zero (numpy emits non-finite entries; the source comment at
line 181 admits it "will not work" at 180°); that failure is modelled by
`none`. -/
def find_init_transfo (evec1 evec2 : V3) : Option M4 :=
  let ec := cross3 evec1 evec2
  let v := skewV ec
  let v2 := v * v
  let c := dot3 evec1 evec2
  if 1 + c = 0 then none
  else
    let R : M3 := 1 + v + (1 + c)⁻¹ • v2
    some (homogT R)

/-- One row of `np.ones`-padded homogeneous coordinates: `[p0, p1, p2, 1]`. -/
def hom4 (p : V3) : Fin 4 → ℚ :=
  fun j => if h : (j : ℕ) < 3 then p ⟨j, h⟩ else 1

/-- Apply a homogeneous matrix to one point and keep the first three
coordinates (the row-wise content of `apply_affine`). -/
def applyT (T : M4) (p : V3) : V3 :=
  fun k => ∑ j : Fin 4, T ⟨(k : ℕ), by omega⟩ j * hom4 p j

/-- Embedding of `apply_affine(A, init_pose)` (source lines 151-160): homogenise the
points, multiply by the pose, return the first three coordinates. -/
def apply_affine (A : List V3) (T : M4) : List V3 :=
  A.map (applyT T)

/-- Embedding of `patch = surfaceVoxelCoord[neighbor]` (source line 200): numpy advanced
indexing, which copies the selected rows. -/
def patchOf (cloud : List V3) (neighbor : List ℕ) : List V3 :=
  neighbor.map (fun i => cloud.getD i v0)

/-- Insert index `i` into a list of patch indices kept sorted by squared
distance to `p` (strictly closer indices go first; on ties the earlier
inserted index stays first). -/
def insertByDist (patch : List V3) (p : V3) (i : ℕ) : List ℕ → List ℕ
  | [] => [i]
  | j :: rest =>
      if sqDist (patch.getD i v0) p < sqDist (patch.getD j v0) p then
        i :: j :: rest
      else
        j :: insertByDist patch p i rest

/-- All patch indices ordered by distance to `p` (ties broken by original
index).  Models the ordering produced by sklearn `NearestNeighbors`. -/
def sortByDist (patch : List V3) (p : V3) : List ℕ :=
  (List.range patch.length).foldl (fun acc i => insertByDist patch p i acc) []

/-- Embedding of `neigh.kneighbors(point, n_neighbors=4)` (source lines 201-204): the
indices of the 4 patch points nearest to `point`. -/
def knn4 (patch : List V3) (p : V3) : List ℕ :=
  (sortByDist patch p).take 4

/-- Embedding of `center = patch[indices][0, 0]` (source line 205): the patch point
nearest to the query point. -/
def centerOf (cloud : List V3) (point : V3) (neighbor : List ℕ) : V3 :=
  let patch := patchOf cloud neighbor
  patch.getD ((knn4 patch point).getD 0 0) v0

/-- Embedding of `norm = normals[neighbor[indices]]; norm = np.sum(norm, axis=0) / 4`
(source lines 209-211): the representative local normal, the average of
the normals of the 4 patch points nearest to the query point. -/
def repNormal (cloud normals : List V3) (point : V3) (neighbor : List ℕ) : V3 :=
  let patch := patchOf cloud neighbor
  let idxs := knn4 patch point
  let norms := idxs.map (fun j => normals.getD (neighbor.getD j 0) v0)
  fun i => (norms.map (fun q => q i)).sum / 4

/-- Embedding of `genPatch(surfaceVoxelCoord, normals, point, neighbor, PixelSpacing)`
(source lines 195-216), together with the caller-visible final values of
its array arguments.  The first component is the returned triple
`(alignedPatch, alignedNorm[0], orignalPatch)`; `none` models the two
failure modes: sklearn raises when the patch has fewer than 4 points
(`kneighbors` with `n_neighbors=4`), and the Rodrigues step divides by
zero on an anti-parallel representative normal.  The second component is
the final state of `(surfaceVoxelCoord, normals, point)`: the cloud and
the normals are only read through copying advanced indexing, while
`point -= center` (source line 208) updates the caller's query point in
place (it runs only after the 4-NN lookup succeeded). -/
def genPatchEff (cloud normals : List V3) (point : V3) (neighbor : List ℕ) :
    Option (List V3 × V3 × List V3) × (List V3 × List V3 × V3) :=
  let patch := patchOf cloud neighbor
  if patch.length < 4 then (none, (cloud, normals, point))
  else
    let c := centerOf cloud point neighbor
    let patch2 := patch.map (fun q => q - c)
    let point2 := point - c
    let n := repNormal cloud normals point neighbor
    match find_init_transfo e3v n with
    | none => (none, (cloud, normals, point2))
    | some T =>
        (some (apply_affine patch2 T, (apply_affine [n] T).getD 0 v0, patch),
         (cloud, normals, point2))

/-- The value returned by `genPatch` (ignoring effects on the inputs). -/
def genPatch (cloud normals : List V3) (point : V3) (neighbor : List ℕ) :
    Option (List V3 × V3 × List V3) :=
  (genPatchEff cloud normals point neighbor).1

/-- An SVD oracle: `np.linalg.svd(H)` is an external numerical routine;
`best_fit_transform` only uses the factors `U` and `Vt` (the singular
values are discarded), so the oracle returns just `(U, Vt)`.  A genuine
SVD always returns orthogonal factors; theorems that need this take it as
a hypothesis. -/
abbrev SvdFn := M3 → M3 × M3

/-- Centroid of a point list: `np.mean(A, axis=0)`. -/
def centroid (A : List V3) : V3 :=
  fun i => (A.map (fun p => p i)).sum / A.length

/-- Embedding of `H = np.dot(AA.T, BB)` (source line 74): the 3×3 cross-covariance of
two centred, equal-length point lists: `H[i,j] = Σ_k AA[k,i]·BB[k,j]`. -/
def covH (AA BB : List V3) : M3 :=
  Matrix.of fun i j => ((AA.zip BB).map (fun pq => pq.1 i * pq.2 j)).sum

/-- Embedding of `Vt[dim-1, :] *= -1` (source line 80): negate the last row of `Vt`. -/
def negLastRow (M : M3) : M3 :=
  M.updateRow 2 ((-1 : ℚ) • M 2)

/-- Embedding of `T = np.identity(dim+1); T[:dim,:dim] = R; T[:dim,dim] = t`
(source lines 87-89). -/
def homogRT (R : M3) (t : V3) : M4 :=
  Matrix.of fun i j =>
    if hi : (i : ℕ) < 3 then
      if hj : (j : ℕ) < 3 then R ⟨i, hi⟩ ⟨j, hj⟩ else t ⟨i, hi⟩
    else if (j : ℕ) < 3 then 0 else 1

/-- Embedding of `best_fit_transform(A, B)` (source lines 53-91): centre both point
lists, form the cross-covariance `H`, SVD it, build `R = Vtᵀ·Uᵀ`, negate
the last row of `Vt` and rebuild `R` if `det R < 0`, then assemble the
translation and the homogeneous matrix.  `none` models the `ValueError`
numpy raises from `np.dot(AA.T, BB)` when the two lists have different
lengths (the spec's `DimensionMismatch`), which propagates to the
caller. -/
def best_fit_transform (svd : SvdFn) (A B : List V3) :
    Option (M4 × M3 × V3) :=
  if A.length = B.length then
    let cA := centroid A
    let cB := centroid B
    let AA := A.map (fun p => p - cA)
    let BB := B.map (fun p => p - cB)
    let H := covH AA BB
    let U := (svd H).1
    let Vt := (svd H).2
    let R0 := Vtᵀ * Uᵀ
    let R := if R0.det < 0 then (negLastRow Vt)ᵀ * Uᵀ else R0
    let t : V3 := fun i => cB i - ∑ j, R i j * cA j
    some (homogRT R t, R, t)
  else none

/-- The rotation block returned by `best_fit_transform` (identity when the
call fails). -/
def bftR (svd : SvdFn) (A B : List V3) : M3 :=
  ((best_fit_transform svd A B).map (fun r => r.2.1)).getD 1

/-- A point-to-point distance oracle.  sklearn's `NearestNeighbors` uses
the Euclidean distance, which is irrational; the icp-level claims are
structural, so the metric is abstracted into an oracle parameter. -/
abbrev DistFn := V3 → V3 → ℚ

/-- Scan of `dst`, keeping the closest point so far (first index wins
ties), continuing at position `i`. -/
def nnFold (d : DistFn) (s : V3) : List V3 → ℕ → ℚ × ℕ → ℚ × ℕ
  | [], _, best => best
  | t :: ts, i, best =>
      nnFold d s ts (i + 1) (if d s t < best.1 then (d s t, i) else best)

/-- Nearest neighbour of `s` in `dst`: (distance, index). -/
def nnOne (d : DistFn) (dst : List V3) (s : V3) : ℚ × ℕ :=
  match dst with
  | [] => (0, 0)
  | t :: ts => nnFold d s ts 1 (d s t, 0)

/-- Embedding of `nearest_neighbor(src, dst)` (source lines 37-50): per-source-point
nearest-neighbour distances and indices into `dst`. -/
def nearest_neighbor (d : DistFn) (src dst : List V3) :
    List ℚ × List ℕ :=
  ((src.map (nnOne d dst)).map (fun r => r.1),
   (src.map (nnOne d dst)).map (fun r => r.2))

/-- Mean (`np.mean`) of a list of rationals. -/
def meanQ (l : List ℚ) : ℚ := l.sum / l.length

/-- Minimum of a list, `np.array(l).min()` (0 on the empty list, where
numpy would raise). -/
def listMin : List ℚ → ℚ
  | [] => 0
  | x :: xs => xs.foldl min x

/-- The observable state of the `icp` loop when it stops: final source
positions, the per-iteration mean distances collected in `error_arr`, the
Python loop variable `i` at exit (the zero-based index of the last
executed iteration), and `len(distances)` of the last iteration. -/
structure IcpTrace where
  src : List V3
  errs : List ℚ
  lastIdx : ℕ
  lastLen : ℕ

/-- The `for i in range(max_iterations)` loop of `icp` (source lines
125-142), with `rem` remaining iterations and `idx` the current value of
`i`: find nearest neighbours, fit a transform onto the matched points,
move the source, record the mean distance, and stop on convergence
(`|prev_error - mean_error| < tolerance`) or exhaustion. -/
def icpLoop (d : DistFn) (svd : SvdFn) (dst : List V3) (tol : ℚ) :
    ℕ → ℕ → List V3 → ℚ → List ℚ → IcpTrace
  | 0, idx, src, _, errs => ⟨src, errs, idx, 0⟩
  | rem + 1, idx, src, prev, errs =>
      let nn := nearest_neighbor d src dst
      let matched := nn.2.map (fun k => dst.getD k v0)
      let T := ((best_fit_transform svd src matched).map (fun r => r.1)).getD 1
      let src2 := apply_affine src T
      let me := meanQ nn.1
      let errs2 := errs ++ [me]
      if |prev - me| < tol ∨ rem = 0 then ⟨src2, errs2, idx, nn.1.length⟩
      else icpLoop d svd dst tol rem (idx + 1) src2 me errs2

/-- The source points after the optional initial pose (source lines 112-119). -/
def icpSrc0 (A : List V3) (init : Option M4) : List V3 :=
  match init with
  | none => A
  | some P => apply_affine A P

/-- The loop state of `icp(A, B, init_pose, max_iterations, tolerance)`
when the loop exits. -/
def icpTrace (d : DistFn) (svd : SvdFn) (A B : List V3) (init : Option M4)
    (maxIter : ℕ) (tol : ℚ) : IcpTrace :=
  icpLoop d svd B tol maxIter 0 (icpSrc0 A init) 0 []

/-- Embedding of `icp(A, B, init_pose, max_iterations, tolerance)` (source
lines 94-148).  Returns `(T, min(error_arr)/len(distances), i)`.  `none` models
the failure modes outside the claims' preconditions: `max_iterations = 0`
leaves `distances` and `error_arr` unassigned (a `NameError` / empty-min
`ValueError` at the return expression), and an empty `A` or `B` makes
sklearn's nearest-neighbour query raise. -/
def icp (d : DistFn) (svd : SvdFn) (A B : List V3) (init : Option M4)
    (maxIter : ℕ) (tol : ℚ) : Option (M4 × ℚ × ℕ) :=
  if maxIter = 0 ∨ A = [] ∨ B = [] then none
  else
    let tr := icpTrace d svd A B init maxIter tol
    some (((best_fit_transform svd A tr.src).map (fun r => r.1)).getD 1,
      listMin tr.errs / (tr.lastLen : ℚ), tr.lastIdx)

/-- The cost `icp(alignedPatch, vFiducial, max_iterations=1)[1]` used by
`checkFiducial` (source line 307): a single-iteration icp run with the
default tolerance `0.001` and no initial pose. -/
def icpCost (d : DistFn) (svd : SvdFn) (vFid : List V3) (p : List V3) : ℚ :=
  ((icp d svd p vFid none 1 (1 / 1000)).map (fun r => r.2.1)).getD 0

/-- The candidate-scoring loop of `checkFiducial` (source lines 301-310),
parameterised by the cost function used on large patches.  Returns the
cost list (in candidate order), the small-patch counter `count`, and the
number of times the large-patch cost function (icp) was invoked.
`sigma = 100`, `points_thresh = 800`; a patch is scored by icp only when
`len(patch) > 800`. -/
def checkCosts (f : List V3 → ℚ) : List (List V3) → List ℚ × ℕ × ℕ
  | [] => ([], 0, 0)
  | p :: ps =>
      let r := checkCosts f ps
      if 800 < p.length then (f p :: r.1, r.2.1, r.2.2 + 1)
      else ((100 : ℚ) :: r.1, r.2.1 + 1, r.2.2)

/-- The scoring loop of `checkFiducial` with its actual cost function: a
single-iteration icp run against the reference model `vFid`. -/
def checkFiducialCosts (d : DistFn) (svd : SvdFn) (vFid : List V3)
    (aligned : List (List V3)) : List ℚ × ℕ × ℕ :=
  checkCosts (icpCost d svd vFid) aligned

/-- The process-wide mutable state read and written by `checkFiducial`
(source lines 22-24, 281-286): the lazily populated reference model
`vFiducial` (`np.array([])`, i.e. `none`, until first use) and the global
`ConstPixelSpacing` triple. -/
structure CacheState where
  vFiducial : Option (List V3)
  constPixelSpacing : ℚ × ℚ × ℚ

/-- The cache discipline of `checkFiducial` (source lines 281-286):
`ConstPixelSpacing = PixelSpacing`, then `if vFiducial.size == 0:
vFiducial = genFiducialModel(ConstPixelSpacing)`.  `genModel` abstracts
`genFiducialModel` (marching-cubes model generation).  Returns the model
used for this call, the final global state, and whether the generator was
invoked. -/
def checkFiducialCache (genModel : ℚ × ℚ × ℚ → List V3) (s : CacheState)
    (spacing : ℚ × ℚ × ℚ) : List V3 × CacheState × Bool :=
  match s.vFiducial with
  | some m => (m, ⟨some m, spacing⟩, false)
  | none => (genModel spacing, ⟨some (genModel spacing), spacing⟩, true)

/-- A trivial distance oracle (all distances zero), used to instantiate
the oracle-parameterised functions on concrete inputs. -/
def dZero : DistFn := fun _ _ => 0

/-- A trivial SVD oracle returning identity factors (which are
orthogonal), used to instantiate the oracle-parameterised functions on
concrete inputs. -/
def svdId : SvdFn := fun _ => (1, 1)

/-! ### Helper lemmas -/

lemma applyT_homogT (R : M3) (p : V3) (k : Fin 3) :
    applyT (homogT R) p k = R 0 k * p 0 + R 1 k * p 1 + R 2 k * p 2 := by
  have h3 : ((3 : Fin 4) : ℕ) = 3 := rfl
  simp [applyT, homogT, hom4, Fin.sum_univ_four, h3]

lemma dot3_e3v (n : V3) : dot3 e3v n = n 2 := by
  simp [dot3, e3v]

lemma cross3_e3v (n : V3) : cross3 e3v n = ![-(n 1), n 0, 0] := by
  funext k
  fin_cases k <;> simp [cross3, e3v]

lemma find_init_transfo_pos (e1 e2 : V3) (hd : 1 + dot3 e1 e2 ≠ 0) :
    find_init_transfo e1 e2 =
      some (homogT (1 + skewV (cross3 e1 e2) +
        (1 + dot3 e1 e2)⁻¹ • (skewV (cross3 e1 e2) * skewV (cross3 e1 e2)))) := by
  simp only [find_init_transfo, if_neg hd]

/-- Applying the transform built by `find_init_transfo([0,0,1], n)` to `n`
itself gives `(n·n)·e₃ + ((1 - n·n)/(1 + n₂))·n` — which is `e₃` exactly
when `n` is a unit vector. -/
lemma find_init_transfo_apply (n : V3) (hd : 1 + n 2 ≠ 0) :
    (find_init_transfo e3v n).map (fun T => applyT T n) =
      some (fun k => dot3 n n * e3v k + ((1 - dot3 n n) / (1 + n 2)) * n k) := by
  simp only [find_init_transfo, dot3_e3v, cross3_e3v, if_neg hd, Option.map_some']
  refine congrArg some ?_
  funext k
  rw [applyT_homogT]
  fin_cases k <;>
    simp [skewV, Matrix.add_apply, Matrix.smul_apply, Matrix.one_apply,
      Matrix.mul_apply, Fin.sum_univ_three, dot3, e3v] <;>
    field_simp <;>
    ring

/-- The aligned normal returned by `genPatch`, as a function of the
representative local normal. -/
lemma genPatch_alignedNorm (cloud normals : List V3) (point : V3)
    (neighbor : List ℕ) (h4 : ¬ (patchOf cloud neighbor).length < 4)
    (hd : 1 + repNormal cloud normals point neighbor 2 ≠ 0) :
    (genPatch cloud normals point neighbor).map (fun r => r.2.1) =
      some (fun k =>
        dot3 (repNormal cloud normals point neighbor)
            (repNormal cloud normals point neighbor) * e3v k +
          ((1 - dot3 (repNormal cloud normals point neighbor)
              (repNormal cloud normals point neighbor)) /
            (1 + repNormal cloud normals point neighbor 2)) *
          repNormal cloud normals point neighbor k) := by
  have happ := find_init_transfo_apply (repNormal cloud normals point neighbor) hd
  simp only [genPatch, genPatchEff, if_neg h4]
  rw [find_init_transfo_pos _ _ (by rwa [dot3_e3v])]
  rw [find_init_transfo_pos _ _ (by rwa [dot3_e3v])] at happ
  simp only [Option.map_some', Option.some.injEq] at happ ⊢
  simp only [apply_affine, List.map_cons, List.map_nil, List.getD_cons_zero]
  exact happ

/-! ### C1: patch canonicalization -/

/-- Claim C1 (amended): for every patch produced by `genPatch` whose
representative local normal (the average of the normals of the 4 nearest
neighbours of the query point) is a **unit** vector and is not
anti-parallel to `[0,0,1]`, the returned aligned normal is exactly
`[0,0,1]`.  (As stated for an arbitrary averaged normal the claim fails:
the average of 4 unit normals need not be unit, and then the rotation
built by `find_init_transfo` does not map it to `[0,0,1]`; see the
counterexample.) -/
theorem c1_aligned_normal_unit (cloud normals : List V3) (point : V3)
    (neighbor : List ℕ) (h4 : ¬ (patchOf cloud neighbor).length < 4)
    (hu : dot3 (repNormal cloud normals point neighbor)
        (repNormal cloud normals point neighbor) = 1)
    (hd : 1 + repNormal cloud normals point neighbor 2 ≠ 0) :
    (genPatch cloud normals point neighbor).map (fun r => r.2.1) = some e3v := by
  rw [genPatch_alignedNorm cloud normals point neighbor h4 hd, hu]
  refine congrArg some ?_
  funext k
  simp

/-- Witness for C1: a concrete 4-point patch whose four neighbour normals
all equal `[3/5, 0, 4/5]` (so their average is that unit vector); the
aligned normal comes out as `[0,0,1]`. -/
theorem c1_aligned_normal_unit_witness :
    dot3 (repNormal [![0,0,0], ![1,0,0], ![2,0,0], ![3,0,0]]
        [![3/5,0,4/5], ![3/5,0,4/5], ![3/5,0,4/5], ![3/5,0,4/5]] v0 [0,1,2,3])
      (repNormal [![0,0,0], ![1,0,0], ![2,0,0], ![3,0,0]]
        [![3/5,0,4/5], ![3/5,0,4/5], ![3/5,0,4/5], ![3/5,0,4/5]] v0 [0,1,2,3]) = 1 ∧
    (genPatch [![0,0,0], ![1,0,0], ![2,0,0], ![3,0,0]]
        [![3/5,0,4/5], ![3/5,0,4/5], ![3/5,0,4/5], ![3/5,0,4/5]] v0
        [0,1,2,3]).map (fun r => r.2.1) = some e3v := by
  have hrep : repNormal [![0,0,0], ![1,0,0], ![2,0,0], ![3,0,0]]
      [![3/5,0,4/5], ![3/5,0,4/5], ![3/5,0,4/5], ![3/5,0,4/5]] v0 [0,1,2,3] =
      ![3/5, 0, 4/5] := by
    funext k
    fin_cases k <;>
      norm_num [repNormal, patchOf, knn4, sortByDist, insertByDist, sqDist, v0,
        List.range_succ]
  refine ⟨by rw [hrep]; norm_num [dot3], ?_⟩
  exact c1_aligned_normal_unit _ _ _ _ (by norm_num [patchOf])
    (by rw [hrep]; norm_num [dot3]) (by rw [hrep]; norm_num)

/-- Counterexample to C1 as stated: a patch whose 4 neighbour normals are
`[1,0,0], [1,0,0], [1,0,0], [0,0,1]` averages to `[3/4, 0, 1/4]`, which is
not anti-parallel to `[0,0,1]` (their dot product is `1/4`), yet the
aligned normal returned by `genPatch` is `[9/40, 0, 7/10]`, far from
`[0,0,1]` (first coordinate off by `9/40`, third by `3/10`). -/
theorem c1_counterexample :
    (genPatch [![0,0,0], ![1,0,0], ![2,0,0], ![3,0,0]]
        [![1,0,0], ![1,0,0], ![1,0,0], ![0,0,1]] v0 [0,1,2,3]).map
        (fun r => r.2.1) = some ![9/40, 0, 7/10] ∧
    (![9/40, 0, 7/10] : V3) ≠ e3v := by
  have hrep : repNormal [![0,0,0], ![1,0,0], ![2,0,0], ![3,0,0]]
      [![1,0,0], ![1,0,0], ![1,0,0], ![0,0,1]] v0 [0,1,2,3] = ![3/4, 0, 1/4] := by
    funext k
    fin_cases k <;>
      norm_num [repNormal, patchOf, knn4, sortByDist, insertByDist, sqDist, v0,
        List.range_succ]
  constructor
  · rw [genPatch_alignedNorm _ _ _ _ (by norm_num [patchOf])
      (by rw [hrep]; norm_num), hrep]
    refine congrArg some ?_
    funext k
    fin_cases k <;> norm_num [dot3, e3v]
  · intro h
    have h0 := congrFun h 0
    norm_num [e3v] at h0

/-! ### C2: proper-rotation invariant of best_fit_transform -/

lemma det_pm_one_of_orth (M : M3) (h : Mᵀ * M = 1) :
    M.det = 1 ∨ M.det = -1 := by
  have h2 := congrArg Matrix.det h
  rw [Matrix.det_mul, Matrix.det_transpose, Matrix.det_one] at h2
  exact mul_self_eq_one_iff.mp h2

/-- The reflection correction of `best_fit_transform`: whenever `U` and
`Vt` are orthogonal, the corrected rotation has determinant `+1`. -/
lemma det_reflection_corrected (U Vt : M3) (hU : Uᵀ * U = 1)
    (hV : Vtᵀ * Vt = 1) :
    (if (Vtᵀ * Uᵀ).det < 0 then (negLastRow Vt)ᵀ * Uᵀ else Vtᵀ * Uᵀ).det = 1 := by
  have hdU := det_pm_one_of_orth U hU
  have hdV := det_pm_one_of_orth Vt hV
  have hneg : (negLastRow Vt).det = -Vt.det := by
    unfold negLastRow
    rw [Matrix.det_updateRow_smul]
    simp
  have h0 : (Vtᵀ * Uᵀ).det = Vt.det * U.det := by
    rw [Matrix.det_mul, Matrix.det_transpose, Matrix.det_transpose]
  by_cases hc : (Vtᵀ * Uᵀ).det < 0
  · rw [if_pos hc, Matrix.det_mul, Matrix.det_transpose, Matrix.det_transpose,
      hneg]
    rw [h0] at hc
    rcases hdU with h1 | h1 <;> rcases hdV with h2 | h2 <;>
      rw [h1, h2] at hc ⊢ <;> norm_num at hc ⊢
  · rw [if_neg hc, h0]
    rw [h0] at hc
    rcases hdU with h1 | h1 <;> rcases hdV with h2 | h2 <;>
      rw [h1, h2] at hc ⊢ <;> norm_num at hc ⊢

/-- Claim C2: for every pair of equal-length point lists, and any SVD
oracle returning orthogonal factors (as `np.linalg.svd` does), the
rotation returned by `best_fit_transform` has determinant `+1`: when
`det R < 0` the last row of `Vt` is negated and `R` recomputed.  (This
holds for all equal-length inputs, in particular the claim's
well-conditioned ones.) -/
theorem c2_proper_rotation (svd : SvdFn) (A B : List V3)
    (hsvd : ∀ M : M3, (svd M).1ᵀ * (svd M).1 = 1 ∧ (svd M).2ᵀ * (svd M).2 = 1)
    (hlen : A.length = B.length) :
    (bftR svd A B).det = 1 := by
  unfold bftR best_fit_transform
  rw [if_pos hlen]
  simp only [Option.map_some', Option.getD_some]
  exact det_reflection_corrected _ _ (hsvd _).1 (hsvd _).2

/-- Witness for C2 at a concrete input. -/
theorem c2_proper_rotation_witness :
    (bftR svdId [![1, 0, 0]] [![0, 1, 0]]).det = 1 :=
  c2_proper_rotation svdId [![1, 0, 0]] [![0, 1, 0]]
    (fun _ => ⟨by simp [svdId], by simp [svdId]⟩) rfl

/-! ### C5: anti-parallel normals in find_init_transfo -/

/-- Claim C5, evaluated at the failing input: with `evec1 = [0,0,1]` and
`evec2 = [0,0,-1]` (anti-parallel), the Rodrigues denominator `1 + c` is
zero and `find_init_transfo` produces no valid rotation (numpy divides by
zero, filling `R` with non-finite entries); the source has no detection
or distinct cost/flag for this case — its comment at line 181 admits it
"will not work". -/
theorem c5_degenerate_rotation_unhandled :
    1 + dot3 e3v ![0, 0, -1] = 0 ∧
    find_init_transfo e3v ![0, 0, -1] = none := by
  have h : 1 + dot3 e3v ![0, 0, -1] = 0 := by norm_num [dot3, e3v]
  exact ⟨h, by rw [find_init_transfo, if_pos (by rw [dot3_e3v] at h ⊢; exact h)]⟩

/-! ### C8: dimension precondition of best_fit_transform -/

/-- Claim C8: `best_fit_transform` returns a transform for every pair of
equal-length point lists with at least one point, and fails (numpy
`ValueError` from the misshapen `np.dot(AA.T, BB)`, the spec's
`DimensionMismatch`, modelled by `none`) on every unequal-length pair,
propagating to the caller instead of returning a result. -/
theorem c8_dimension_mismatch (svd : SvdFn) (A B : List V3) :
    (A.length = B.length ∧ 1 ≤ A.length →
      (best_fit_transform svd A B).isSome = true) ∧
    (A.length ≠ B.length → best_fit_transform svd A B = none) := by
  constructor
  · rintro ⟨h, -⟩
    simp [best_fit_transform, if_pos h]
  · intro h
    simp [best_fit_transform, if_neg h]

/-- Witness for C8: a matched singleton pair succeeds; a `1` vs `0`
length pair fails. -/
theorem c8_dimension_mismatch_witness :
    (best_fit_transform svdId [![1, 0, 0]] [![0, 0, 1]]).isSome = true ∧
    best_fit_transform svdId [![1, 0, 0]] [] = none :=
  ⟨(c8_dimension_mismatch svdId [![1, 0, 0]] [![0, 0, 1]]).1 ⟨rfl, by norm_num⟩,
   (c8_dimension_mismatch svdId [![1, 0, 0]] []).2 (by norm_num)⟩

/-! ### C6: reference-model cache discipline -/

/-- Claim C6 (amended): the reference-model cache of `checkFiducial` is a
single process-wide slot, populated on the first call and never again —
it is **not** keyed by pixel spacing.  The first call on an empty cache
invokes the generator; every subsequent call, with the **same or a
different** spacing, returns the model from the first call without
invoking the generator (so the same-spacing reuse the claim describes
does hold, but a different-spacing call reuses the stale model instead of
one generated for its own spacing). -/
theorem c6_cache_single_slot (g : ℚ × ℚ × ℚ → List V3)
    (d sp1 sp2 : ℚ × ℚ × ℚ) :
    (checkFiducialCache g ⟨none, d⟩ sp1).2.2 = true ∧
    (checkFiducialCache g ⟨none, d⟩ sp1).1 = g sp1 ∧
    (checkFiducialCache g ((checkFiducialCache g ⟨none, d⟩ sp1).2.1) sp2).1 =
      g sp1 ∧
    (checkFiducialCache g ((checkFiducialCache g ⟨none, d⟩ sp1).2.1) sp2).2.2 =
      false := by
  simp [checkFiducialCache]

/-- Counterexample to C6 as stated: with a generator whose output depends
on the spacing, a first call at spacing `(1,1,1)` followed by a call at
spacing `(2,2,2)` makes the second call use the model generated for
`(1,1,1)`, not a model generated for its own spacing, and the generator
is not invoked again. -/
theorem c6_counterexample :
    (checkFiducialCache (fun sp => [![sp.1, 0, 0]])
        ((checkFiducialCache (fun sp => [![sp.1, 0, 0]]) ⟨none, (1, 1, 1)⟩
          (1, 1, 1)).2.1) (2, 2, 2)).1 ≠
      (fun sp : ℚ × ℚ × ℚ => [(![sp.1, 0, 0] : V3)]) (2, 2, 2) ∧
    (checkFiducialCache (fun sp => [![sp.1, 0, 0]])
        ((checkFiducialCache (fun sp => [![sp.1, 0, 0]]) ⟨none, (1, 1, 1)⟩
          (1, 1, 1)).2.1) (2, 2, 2)).2.2 = false := by
  constructor
  · intro h
    simp only [checkFiducialCache, List.cons.injEq, and_true] at h
    have h0 := congrFun h 0
    norm_num at h0
  · simp [checkFiducialCache]

/-! ### C7: side effects of genPatch -/

/-- The caller-visible final state of `genPatch`'s inputs. -/
lemma genPatchEff_state (cloud normals : List V3) (point : V3)
    (neighbor : List ℕ) :
    (genPatchEff cloud normals point neighbor).2 =
      (cloud, normals,
        if (patchOf cloud neighbor).length < 4 then point
        else point - centerOf cloud point neighbor) := by
  unfold genPatchEff
  by_cases h : (patchOf cloud neighbor).length < 4
  · simp [h]
  · simp only [h, if_neg h, if_false]
    cases find_init_transfo e3v (repNormal cloud normals point neighbor) <;> simp

/-- Claim C7 (amended): `genPatch` leaves the caller's point cloud and
normals array unchanged (numpy advanced indexing copies the selected
rows), but it is **not** free of side effects on its inputs: whenever the
patch has at least 4 points, `point -= center` (source line 208) mutates
the caller's query point in place, which afterwards holds
`point - center` rather than its original value. -/
theorem c7_genPatch_effects (cloud normals : List V3) (point : V3)
    (neighbor : List ℕ) :
    (genPatchEff cloud normals point neighbor).2.1 = cloud ∧
    (genPatchEff cloud normals point neighbor).2.2.1 = normals ∧
    (¬ (patchOf cloud neighbor).length < 4 →
      (genPatchEff cloud normals point neighbor).2.2.2 =
        point - centerOf cloud point neighbor) := by
  refine ⟨?_, ?_, ?_⟩
  · rw [genPatchEff_state]
  · rw [genPatchEff_state]
  · intro h
    rw [genPatchEff_state]
    simp [h]

/-- Witness for C7 on a concrete input (patch of 4 points). -/
theorem c7_genPatch_effects_witness :
    (genPatchEff [![1, 0, 0], ![1, 0, 0], ![1, 0, 0], ![1, 0, 0]]
        [![0, 0, 1], ![0, 0, 1], ![0, 0, 1], ![0, 0, 1]] v0 [0, 1, 2, 3]).2.1 =
      [![1, 0, 0], ![1, 0, 0], ![1, 0, 0], ![1, 0, 0]] ∧
    (genPatchEff [![1, 0, 0], ![1, 0, 0], ![1, 0, 0], ![1, 0, 0]]
        [![0, 0, 1], ![0, 0, 1], ![0, 0, 1], ![0, 0, 1]] v0 [0, 1, 2, 3]).2.2.2 =
      v0 - centerOf [![1, 0, 0], ![1, 0, 0], ![1, 0, 0], ![1, 0, 0]] v0
        [0, 1, 2, 3] := by
  refine ⟨(c7_genPatch_effects _ _ _ _).1, ?_⟩
  exact (c7_genPatch_effects [![1, 0, 0], ![1, 0, 0], ![1, 0, 0], ![1, 0, 0]]
    [![0, 0, 1], ![0, 0, 1], ![0, 0, 1], ![0, 0, 1]] v0 [0, 1, 2, 3]).2.2
    (by norm_num [patchOf])

/-- Counterexample to C7 as stated: on a concrete 4-point patch whose
nearest point to the query is `[1,0,0]`, the query point passed in as
`[0,0,0]` holds `[-1,0,0]` after the call — `genPatch` mutated it in
place. -/
theorem c7_counterexample :
    (genPatchEff [![1, 0, 0], ![1, 0, 0], ![1, 0, 0], ![1, 0, 0]]
        [![0, 0, 1], ![0, 0, 1], ![0, 0, 1], ![0, 0, 1]] v0 [0, 1, 2, 3]).2.2.2 ≠
      v0 := by
  rw [genPatchEff_state]
  have hc : centerOf [![1, 0, 0], ![1, 0, 0], ![1, 0, 0], ![1, 0, 0]] v0
      [0, 1, 2, 3] = ![1, 0, 0] := by
    norm_num [centerOf, patchOf, knn4, sortByDist, insertByDist, sqDist, v0,
      List.range_succ]
  rw [if_neg (by norm_num [patchOf]), hc]
  intro h
  have h0 := congrFun h 0
  norm_num [v0] at h0

/-! ### C3: sentinel cost and threshold in checkFiducial -/

lemma checkCosts_spec (f : List V3 → ℚ) (l : List (List V3)) :
    (checkCosts f l).1 =
      l.map (fun p => if 800 < p.length then f p else 100) ∧
    (checkCosts f l).2.1 = l.countP (fun p => decide (p.length ≤ 800)) ∧
    (checkCosts f l).2.2 = l.countP (fun p => decide (800 < p.length)) := by
  induction l with
  | nil => simp [checkCosts]
  | cons p ps ih =>
    by_cases h : 800 < p.length
    · simp [checkCosts, h, ih.1, ih.2.1, ih.2.2, List.countP_cons,
        Nat.not_le.mpr h]
    · simp [checkCosts, h, ih.1, ih.2.1, ih.2.2, List.countP_cons,
        Nat.not_lt.mp h]

/-- Claim C3 (amended): in `checkFiducial`'s scoring loop, a candidate
whose aligned patch has **at most** 800 points (the source tests
`len > 800`, so a patch of exactly 800 points also takes this branch —
not only "fewer than 800" as claimed) gets the fixed sentinel cost `100`
and bumps the small-patch counter, and the single-iteration icp cost
function is not invoked for it; a candidate with more than 800 points
gets the cost reported by a single-iteration (`max_iterations=1`) icp run
of its aligned patch against the reference model.  The icp-invocation
count equals the number of large patches. -/
theorem c3_sentinel_threshold (d : DistFn) (svd : SvdFn) (vFid : List V3)
    (aligned : List (List V3)) (i : ℕ) :
    (checkFiducialCosts d svd vFid aligned).1[i]? =
      aligned[i]?.map (fun p =>
        if 800 < p.length then icpCost d svd vFid p else 100) ∧
    (checkFiducialCosts d svd vFid aligned).2.1 =
      aligned.countP (fun p => decide (p.length ≤ 800)) ∧
    (checkFiducialCosts d svd vFid aligned).2.2 =
      aligned.countP (fun p => decide (800 < p.length)) := by
  have hs := checkCosts_spec (icpCost d svd vFid) aligned
  exact ⟨by rw [checkFiducialCosts, hs.1, List.getElem?_map], hs.2.1, hs.2.2⟩

/-- One-iteration runs of the icp loop exit on their first iteration. -/
lemma icpLoop_one_exit (d : DistFn) (svd : SvdFn) (dst : List V3) (tol : ℚ)
    (idx : ℕ) (src : List V3) (prev : ℚ) (errs : List ℚ) :
    icpLoop d svd dst tol 1 idx src prev errs =
      ⟨apply_affine src (((best_fit_transform svd src
          ((nearest_neighbor d src dst).2.map (fun k => dst.getD k v0))).map
          (fun r => r.1)).getD 1),
       errs ++ [meanQ (nearest_neighbor d src dst).1], idx,
       (nearest_neighbor d src dst).1.length⟩ := by
  show icpLoop d svd dst tol (0 + 1) idx src prev errs = _
  rw [icpLoop]
  rw [if_pos (Or.inr rfl)]

lemma icpCost_replicate800 :
    icpCost dZero svdId [v0] (List.replicate 800 v0) = 0 := by
  have hnn1 : (nearest_neighbor dZero (List.replicate 800 v0) [v0]).1 =
      List.replicate 800 0 := by
    rw [nearest_neighbor]
    simp only [List.map_replicate]
    rw [show nnOne dZero [v0] v0 = (0, 0) from rfl]
  have herrs : (icpTrace dZero svdId (List.replicate 800 v0) [v0] none 1
      (1 / 1000)).errs = [0] := by
    rw [icpTrace, icpSrc0, icpLoop_one_exit]
    rw [show ((⟨_, _, _, _⟩ : IcpTrace)).errs = _ from rfl]
    rw [hnn1, meanQ, List.sum_replicate, List.length_replicate]
    norm_num
  rw [icpCost, icp,
    if_neg (by simp only [List.replicate_eq_nil_iff]; norm_num)]
  simp only [Option.map_some', Option.getD_some]
  rw [herrs]
  rw [show listMin [0] = 0 from rfl]
  exact zero_div _

/-- Counterexample to C3 as stated: a patch of exactly 800 points is not
"fewer than 800", so the claim routes it to icp — but the source tests
`len > 800` and assigns the sentinel `100` (here the icp cost of the same
patch would have been `0`), incrementing the small-patch counter and
never invoking icp. -/
theorem c3_counterexample :
    (checkFiducialCosts dZero svdId [v0] [List.replicate 800 v0]).1 = [100] ∧
    (checkFiducialCosts dZero svdId [v0] [List.replicate 800 v0]).2.1 = 1 ∧
    (checkFiducialCosts dZero svdId [v0] [List.replicate 800 v0]).2.2 = 0 ∧
    icpCost dZero svdId [v0] (List.replicate 800 v0) = 0 ∧
    (List.replicate 800 (v0 : V3)).length = 800 := by
  have hlen : ¬ (800 < (List.replicate 800 (v0 : V3)).length) := by
    rw [List.length_replicate]
    norm_num
  refine ⟨?_, ?_, ?_, icpCost_replicate800, by rw [List.length_replicate]⟩ <;>
    simp only [checkFiducialCosts, checkCosts, if_neg hlen]

/-! ### C4, C9, C10: icp cost, iteration count, and preconditions -/

lemma nearest_neighbor_fst_length (d : DistFn) (src dst : List V3) :
    (nearest_neighbor d src dst).1.length = src.length := by
  simp [nearest_neighbor]

lemma apply_affine_length (A : List V3) (T : M4) :
    (apply_affine A T).length = A.length := by
  simp [apply_affine]

/-- At loop exit `len(distances)` is the (invariant) number of source
points: the per-iteration correspondence count equals `len(A)`. -/
lemma icpLoop_lastLen (d : DistFn) (svd : SvdFn) (dst : List V3) (tol : ℚ) :
    ∀ rem idx src prev errs, rem ≠ 0 →
      (icpLoop d svd dst tol rem idx src prev errs).lastLen = src.length := by
  intro rem
  induction rem with
  | zero => exact fun idx src prev errs h => absurd rfl h
  | succ r ih =>
    intro idx src prev errs _
    rw [icpLoop]
    split
    · exact nearest_neighbor_fst_length d src dst
    · rename_i hcond
      have hr : r ≠ 0 := fun h0 => hcond (Or.inr h0)
      rw [ih _ _ _ _ hr, apply_affine_length]

/-- The icp loop exits on an iteration whose mean distance has converged. -/
lemma icpLoop_conv_exit (d : DistFn) (svd : SvdFn) (dst : List V3) (tol : ℚ)
    (rem idx : ℕ) (src : List V3) (prev : ℚ) (errs : List ℚ)
    (h : |prev - meanQ (nearest_neighbor d src dst).1| < tol) :
    icpLoop d svd dst tol (rem + 1) idx src prev errs =
      ⟨apply_affine src (((best_fit_transform svd src
          ((nearest_neighbor d src dst).2.map (fun k => dst.getD k v0))).map
          (fun r => r.1)).getD 1),
       errs ++ [meanQ (nearest_neighbor d src dst).1], idx,
       (nearest_neighbor d src dst).1.length⟩ := by
  rw [icpLoop]
  rw [if_pos (Or.inl h)]

/-- Claim C4: for every icp run that executes at least one iteration
(`max_iterations ≠ 0`, non-empty inputs), the returned cost is
`min(error_arr)` — the minimum of the per-iteration mean
nearest-neighbour distances — divided by `len(distances)`, the number of
correspondences of the final iteration, which equals the number of
source points. -/
theorem c4_cost_normalization (d : DistFn) (svd : SvdFn) (A B : List V3)
    (init : Option M4) (maxIter : ℕ) (tol : ℚ) (h1 : maxIter ≠ 0)
    (hA : A ≠ []) (hB : B ≠ []) :
    (icp d svd A B init maxIter tol).map (fun r => r.2.1) =
      some (listMin (icpTrace d svd A B init maxIter tol).errs /
        ((icpTrace d svd A B init maxIter tol).lastLen : ℚ)) ∧
    (icpTrace d svd A B init maxIter tol).lastLen = A.length := by
  constructor
  · rw [icp, if_neg (by simp [h1, hA, hB])]
    rfl
  · rw [icpTrace, icpLoop_lastLen d svd B tol maxIter 0 _ 0 [] h1]
    cases init with
    | none => rw [icpSrc0]
    | some P => rw [icpSrc0, apply_affine_length]

/-- Witness for C4 at a concrete one-point, one-iteration run. -/
theorem c4_cost_normalization_witness :
    (icp dZero svdId [v0] [v0] none 1 1).map (fun r => r.2.1) =
      some (listMin (icpTrace dZero svdId [v0] [v0] none 1 1).errs /
        ((icpTrace dZero svdId [v0] [v0] none 1 1).lastLen : ℚ)) ∧
    (icpTrace dZero svdId [v0] [v0] none 1 1).lastLen = 1 :=
  c4_cost_normalization dZero svdId [v0] [v0] none 1 1 (by norm_num)
    (by simp) (by simp)

/-- Claim C9, evaluated at the failing input: on `A = B = [[0,0,0]]` with
`max_iterations = 5` the loop converges during its first (and only
executed) iteration — `error_arr` has length 1 — yet the returned
iteration count is `0`, the zero-based loop index, not the number `1` of
iterations actually executed that the claim (and the source docstring
"number of iterations to converge") describe. -/
theorem c9_iteration_count_eval :
    (icp dZero svdId [v0] [v0] none 5 (1 / 1000)).map (fun r => r.2.2) =
      some 0 ∧
    (icpTrace dZero svdId [v0] [v0] none 5 (1 / 1000)).errs.length = 1 := by
  have hnn : (nearest_neighbor dZero [v0] [v0]).1 = [0] := rfl
  have hme : meanQ (nearest_neighbor dZero [v0] [v0]).1 = 0 := by
    rw [hnn, meanQ]
    norm_num
  have hconv : |(0 : ℚ) - meanQ (nearest_neighbor dZero [v0] [v0]).1| <
      1 / 1000 := by
    rw [hme]
    norm_num
  have htr : (icpTrace dZero svdId [v0] [v0] none 5 (1 / 1000)).errs = [0] ∧
      (icpTrace dZero svdId [v0] [v0] none 5 (1 / 1000)).lastIdx = 0 := by
    rw [icpTrace, icpSrc0, show (5 : ℕ) = 4 + 1 from rfl,
      icpLoop_conv_exit dZero svdId [v0] (1 / 1000) 4 0 [v0] 0 [] hconv]
    exact ⟨by rw [show ((⟨_, [] ++ [meanQ (nearest_neighbor dZero [v0] [v0]).1],
      0, _⟩ : IcpTrace)).errs = [meanQ (nearest_neighbor dZero [v0] [v0]).1]
      from rfl, hme], rfl⟩
  constructor
  · rw [icp, if_neg (by simp)]
    simp only [Option.map_some', Option.some.injEq]
    exact htr.2
  · rw [htr.1]
    rfl

/-- Claim C10: the icp loop body is the only place `distances` and
`error_arr` are assigned, so `max_iterations = 0` leaves the return
expression undefined (modelled `none`); with `max_iterations ≥ 1` and
non-empty `A` and `B` a result is always produced. -/
theorem c10_icp_defined (d : DistFn) (svd : SvdFn) (A B : List V3)
    (init : Option M4) (maxIter : ℕ) (tol : ℚ) (h1 : maxIter ≠ 0)
    (hA : A ≠ []) (hB : B ≠ []) :
    (icp d svd A B init maxIter tol).isSome = true ∧
    icp d svd A B init 0 tol = none := by
  constructor
  · rw [icp, if_neg (by simp [h1, hA, hB])]
    rfl
  · rw [icp, if_pos (Or.inl rfl)]

/-- Witness for C10 at a concrete input. -/
theorem c10_icp_defined_witness :
    (icp dZero svdId [e3v] [e3v] none 1 1).isSome = true ∧
    icp dZero svdId [e3v] [e3v] none 0 1 = none :=
  c10_icp_defined dZero svdId [e3v] [e3v] none 1 1 (by norm_num)
    (by simp) (by simp)

end Skull
